import Mathlib

/-
Verification of the supervision core of opencode-manager.

Shallow embedding of:
- the project registry (class ProjectRegistry, including the port cursor),
- the port allocator (isPortAvailable / findAvailablePort /
  scanExistingOpenCodePorts),
- the process supervisor (startServer / stopServer / waitForServer /
  checkHealth and the exit and error handlers registered on spawned
  processes) from src/opencode.ts,
- the event fan-out hub (addConnection / broadcast / startEventForwarding)
  from the events module.

The OS and the worker processes are modelled as an explicit environment
(oracle) record: which ports can be bound, which ports answer the health
probe, what pid a spawn yields, which SSE sinks accept writes.  Asynchronous
suspension points of the JavaScript code (each `await`, each event-handler
invocation) become step boundaries of small-step machines, so that
interleavings of operations can be expressed.
-/

namespace OCM

/-- Status field of a ProjectEntry (registry section of the source):
`"starting" | "running" | "stopped" | "error"`. -/
inductive Status where
  | starting
  | running
  | stopped
  | error
  deriving DecidableEq, Repr

/-- ProjectEntry from the registry.  Timestamps (`startedAt`, `lastActivity`,
ISO strings produced by `new Date()`) are modelled as readings of a logical
clock carried in the shared state. -/
structure Entry where
  port : Nat
  pid : Nat
  status : Status
  hasTUI : Bool
  tmuxSession : Option String
  tmuxWindow : Option String
  tmuxPane : Option String
  sessionId : Option String
  startedAt : Nat
  lastActivity : Nat
  deriving DecidableEq, Repr

/-- Partial update record passed to `registry.update`.  Only the fields the
supervisor actually patches (`status`, `sessionId`) are represented; `some v`
means the field is present in the update object. -/
structure Patch where
  status : Option Status
  sessionId : Option (Option String)
  deriving DecidableEq, Repr

/-- Merge of `registry.update`: spread the existing entry, spread the updates,
restamp `lastActivity` with the current time. -/
def applyPatch (e : Entry) (p : Patch) (now : Nat) : Entry :=
  { e with
    status := p.status.getD e.status
    sessionId := p.sessionId.getD e.sessionId
    lastActivity := now }

/-- Lookup in a string-keyed map (JS object / Map).  Keys are unique in every
state reachable by the embedded operations, so first-match lookup is the JS
semantics. -/
def alookup {α : Type} : List (String × α) → String → Option α
  | [], _ => none
  | (k, v) :: r, p => if k = p then some v else alookup r p

/-- Insert-or-replace in a string-keyed map: `obj[key] = value` / `Map.set`. -/
def aset {α : Type} : List (String × α) → String → α → List (String × α)
  | [], p, v => [(p, v)]
  | (k, w) :: r, p, v => if k = p then (p, v) :: r else (k, w) :: aset r p v

/-- Key deletion: `delete obj[key]` / `Map.delete`. -/
def aremove {α : Type} : List (String × α) → String → List (String × α)
  | [], _ => []
  | (k, w) :: r, p => if k = p then r else (k, w) :: aremove r p

/-- `registry.update`: no-op when the key is absent, otherwise merge the
patch and restamp `lastActivity`. -/
def rgUpdate (r : List (String × Entry)) (p : String) (pa : Patch) (now : Nat) :
    List (String × Entry) :=
  match alookup r p with
  | none => r
  | some e => aset r p (applyPatch e pa now)

/-! ## Port allocator (isPortAvailable / findAvailablePort) -/

/-- Loop body of `findAvailablePort`: try `fuel` consecutive ports starting at
`port`; `free` is the environment's answer to the bind probe of
`isPortAvailable` (binding succeeded and the listener was closed). -/
def findFrom (free : Nat → Bool) : Nat → Nat → Option Nat
  | 0, _ => none
  | fuel + 1, port => if free port then some port else findFrom free fuel (port + 1)

/-- `findAvailablePort(startPort, maxPort = 4196)`: first bindable port in
`[startPort, maxPort]`, scanning upward; `none` models the thrown
`No available ports found in range` error (PortExhausted). -/
def findAvailablePort (free : Nat → Bool) (startPort : Nat) (maxPort : Nat) :
    Option Nat :=
  findFrom free (maxPort + 1 - startPort) startPort

/-! ## Health probe (checkHealth) -/

/-- JSON-like values, the possible results of `response.json()`. -/
inductive Js where
  | null
  | bool (b : Bool)
  | num (n : Int)
  | str (s : String)
  | arr (elems : List Js)
  | obj (fields : List (String × Js))

/-- JavaScript `data.healthy === true`: `true` exactly when the value is an
object whose `healthy` field is the boolean `true`.  Property access on a
primitive yields `undefined` (so `=== true` is false) and on `null` throws a
TypeError that the surrounding `catch` turns into `false`; both cases give
`false` here. -/
def healthyFieldTrue : Js → Bool
  | .obj fields =>
    match alookup fields "healthy" with
    | some (.bool true) => true
    | _ => false
  | _ => false

/-- Outcome of the `fetch` in `checkHealth`: a transport failure (rejected
promise, caught) or a response with its `ok` flag (status 2xx) and parsed
body (`none` when `response.json()` itself threw, also caught). -/
inductive FetchResult where
  | failure
  | success (ok : Bool) (body : Option Js)

/-- `checkHealth`: true only for an ok response whose body parsed and has
`healthy === true`; every other outcome (non-ok status, parse error,
transport failure) is false.  A total function: the probe never throws. -/
def checkHealth : FetchResult → Bool
  | .failure => false
  | .success ok body =>
    if ok then
      match body with
      | some j => healthyFieldTrue j
      | none => false
    else false

/-! ## Process-table scan (scanExistingOpenCodePorts) -/

/-- One line of `ps aux` output, abstracted to the string tests the source
performs on it: the three `includes` checks and the first capture of the
`--port\s+(\d+)` regex (already parsed; `parseInt` on a `\d+` capture is
never NaN). -/
structure PsLine where
  hasOpencodeServe : Bool
  hasPortFlag : Bool
  hasGrep : Bool
  portArg : Option Nat
  deriving DecidableEq, Repr

/-- Port contributed by one ps line: the line must mention `opencode serve`
and `--port`, not be a grep, match the regex, and the port must lie in
`[4000, 5000]`. -/
def linePort (l : PsLine) : Option Nat :=
  if l.hasOpencodeServe && l.hasPortFlag && !l.hasGrep then
    match l.portArg with
    | some p => if 4000 ≤ p ∧ p ≤ 5000 then some p else none
    | none => none
  else none

/-- Ascending sort of a list of naturals, the result of
`ports.sort((a, b) => a - b)`. -/
def sortAsc (l : List Nat) : List Nat := List.insertionSort (· ≤ ·) l

/-- `scanExistingOpenCodePorts`: `none` input models `execSync("ps aux")`
throwing (the catch returns `[]`); otherwise collect the in-range ports of
the matching lines and sort ascending. -/
def scanExistingOpenCodePorts (ps : Option (List PsLine)) : List Nat :=
  match ps with
  | none => []
  | some lines => sortAsc (lines.filterMap linePort)

/-- `Math.max(...list)` over a nonempty list (0 for the empty list, which the
source never reaches because it guards on `length > 0`). -/
def listMax : List Nat → Nat
  | [] => 0
  | n :: r => max n (listMax r)

/-- `registry.initializePortAllocation`: when the scan found ports, set the
cursor to `max(4097, highest + 1)`; otherwise leave it unchanged. -/
def initializePortAllocation (ps : Option (List PsLine)) (cursor : Nat) : Nat :=
  match scanExistingOpenCodePorts ps with
  | [] => cursor
  | l => max 4097 (listMax l + 1)

/-! ## Supervisor state machine (startServer / stopServer / exit handler)

`startServer` is an async function; its `await` points (the initial health
probe, the bind probes inside `allocatePort`, and each tick of the
`waitForServer` poll loop) divide it into atomic blocks.  The blocks become
the steps of a small machine over a shared state, so that a single call can
be run to completion and two calls can be interleaved. -/

/-- Shared mutable state of the manager process: the registry map and port
cursor (class ProjectRegistry), the tracked-process map (`processes`), a
logical clock standing in for `new Date()`, and a log of the `spawn` calls
performed (path and `--port` argument of each spawned worker). -/
structure Shared where
  reg : List (String × Entry)
  procs : List (String × Nat)
  nextPort : Nat
  clock : Nat
  spawnLog : List (String × Nat)
  deriving DecidableEq, Repr

/-- Environment oracle: `healthy p` is the outcome of a `checkHealth` probe
against port `p` (the Boolean `checkHealth` reduces every fetch outcome to),
`free p` the outcome of the `isPortAvailable` bind probe, and
`spawnPid path p` the `proc.pid` that `spawn("opencode", ["serve", "--port",
p])` run in `path` yields (`none`: the spawn failed, the process has no pid
and an `error` event will fire asynchronously). -/
structure Env where
  healthy : Nat → Bool
  free : Nat → Bool
  spawnPid : String → Nat → Option Nat

/-- Errors a `startServer` call can reject with: the PortExhausted throw of
`findAvailablePort` and the HealthTimeout throw of `waitForServer`. -/
inductive EnsureErr where
  | portExhausted
  | healthTimeout
  deriving DecidableEq, Repr

/-- Result of a completed `startServer` call. -/
inductive EResult where
  | ok (port : Nat)
  | err (e : EnsureErr)
  deriving DecidableEq, Repr

/-- Control point of one in-flight `startServer(path)` call, between two
`await`s:
- `start`: about to read the registry entry;
- `healthCheck port`: existing running entry found, probing its port;
- `allocate cursor`: inside `registry.allocatePort()`, the cursor already
  captured, the bind scan pending;
- `waitLoop port fuel`: entry recorded, polling `waitForServer` with `fuel`
  sleep ticks remaining (15000 ms / 300 ms: 49 sleeps after the first probe);
- `done r`: the call resolved or rejected. -/
inductive Phase where
  | start
  | healthCheck (port : Nat)
  | allocate (cursor : Nat)
  | waitLoop (port : Nat) (fuel : Nat)
  | done (r : EResult)
  deriving DecidableEq, Repr

/-- Registry entry written by `registry.add` at spawn time. -/
def mkEntry (port pid now : Nat) : Entry :=
  ⟨port, pid, .starting, false, none, none, none, none, now, now⟩

/-- One atomic block of `startServer(path)`:
- at `start`: `registry.get`; a `running` entry moves to the health probe,
  otherwise `allocatePort` begins by capturing the cursor;
- at `healthCheck`: a healthy probe resolves with the existing port and no
  other effect; otherwise the entry is marked `stopped` and allocation
  begins;
- at `allocate`: the bind scan fixes the port, the cursor advances to one
  past it, the worker is spawned (logged), and — only if the spawn produced
  a pid — the process is tracked, the entry added with status `starting`,
  and the poll loop entered; with no pid the call resolves with the port
  without recording anything; a failed scan rejects with PortExhausted
  before the cursor moves;
- at `waitLoop`: one `isServerHealthy` tick; healthy marks the entry
  `running` and resolves; exhausted fuel marks it `error` and rejects with
  HealthTimeout. -/
def stepE (env : Env) (path : String) : Phase → Shared → Phase × Shared
  | .start, s =>
    match alookup s.reg path with
    | some en =>
      if en.status = .running then (.healthCheck en.port, s)
      else (.allocate s.nextPort, s)
    | none => (.allocate s.nextPort, s)
  | .healthCheck port, s =>
    if env.healthy port then (.done (.ok port), s)
    else
      (.allocate s.nextPort,
        { s with reg := rgUpdate s.reg path ⟨some .stopped, none⟩ s.clock,
                 clock := s.clock + 1 })
  | .allocate cursor, s =>
    match findAvailablePort env.free cursor 4196 with
    | none => (.done (.err .portExhausted), s)
    | some port =>
      let s1 := { s with nextPort := port + 1, spawnLog := s.spawnLog ++ [(path, port)] }
      match env.spawnPid path port with
      | none => (.done (.ok port), s1)
      | some pid =>
        (.waitLoop port 49,
          { s1 with procs := aset s1.procs path pid,
                    reg := aset s1.reg path (mkEntry port pid s1.clock),
                    clock := s1.clock + 1 })
  | .waitLoop port fuel, s =>
    if env.healthy port then
      (.done (.ok port),
        { s with reg := rgUpdate s.reg path ⟨some .running, none⟩ s.clock,
                 clock := s.clock + 1 })
    else
      match fuel with
      | 0 =>
        (.done (.err .healthTimeout),
          { s with reg := rgUpdate s.reg path ⟨some .error, none⟩ s.clock,
                   clock := s.clock + 1 })
      | f + 1 => (.waitLoop port f, s)
  | .done r, s => (.done r, s)

/-- Fuelled solo run of one `startServer` call (a `done` phase is a fixed
point, so any sufficient fuel gives the final configuration). -/
def runE (env : Env) (path : String) : Nat → Phase → Shared → Phase × Shared
  | 0, ph, s => (ph, s)
  | n + 1, ph, s =>
    match stepE env path ph s with
    | (ph2, s2) => runE env path n ph2 s2

/-- Big-step execution relation of one `startServer` call running alone:
from phase `ph` in shared state `s` the call completes with result `r`
leaving state `s2`. -/
inductive Steps (env : Env) (path : String) : Phase → Shared → EResult → Shared → Prop where
  | done {r : EResult} {s : Shared} : Steps env path (.done r) s r s
  | step {ph : Phase} {s : Shared} {ph2 : Phase} {s2 : Shared} {r : EResult} {s3 : Shared} :
      stepE env path ph s = (ph2, s2) → Steps env path ph2 s2 r s3 →
      Steps env path ph s r s3

/-- One scheduler turn over two interleaved `startServer` calls on paths
`pA`/`pB`: `true` advances the first call by one atomic block, `false` the
second. -/
def stepPair (env : Env) (pA pB : String) (turn : Bool)
    (st : Phase × Phase × Shared) : Phase × Phase × Shared :=
  if turn then
    match stepE env pA st.1 st.2.2 with
    | (ph2, s2) => (ph2, st.2.1, s2)
  else
    match stepE env pB st.2.1 st.2.2 with
    | (ph2, s2) => (st.1, ph2, s2)

/-- Run two interleaved calls under an explicit schedule. -/
def runPair (env : Env) (pA pB : String) (sched : List Bool)
    (st : Phase × Phase × Shared) : Phase × Phase × Shared :=
  sched.foldl (fun acc turn => stepPair env pA pB turn acc) st

/-- Manager state at process start: empty registry, no tracked processes,
cursor at the base port 4097. -/
def initShared : Shared := ⟨[], [], 4097, 0, []⟩

/-- Exit observer registered on every spawned process (`proc.on("exit")`):
drop the path from the tracked-process map and patch the entry to
`status: "stopped", sessionId: null`.  The exit `code` (`null` when the
process died from a signal) is only logged; it appears as a parameter only so
that independence from it can be stated. -/
def handleExit (s : Shared) (path : String) (code : Option Int) : Shared :=
  { s with procs := aremove s.procs path,
           reg := rgUpdate s.reg path ⟨some .stopped, some none⟩ s.clock,
           clock := s.clock + 1 }

/-- Error observer registered on every spawned process (`proc.on("error")`):
patch the entry to `status: "error"` (a no-op when no entry was recorded). -/
def handleError (s : Shared) (path : String) : Shared :=
  { s with reg := rgUpdate s.reg path ⟨some .error, none⟩ s.clock,
           clock := s.clock + 1 }

/-- Signals `stopServer` sends: SIGTERM to the attach processes of a port
(via killAttachProcesses, which swallows its own errors), SIGTERM to the
tracked child-process handle, SIGTERM by raw pid (the fallback, wrapped in a
try/catch that swallows delivery errors). -/
inductive SigEv where
  | attachKill (port : Nat)
  | termProc (pid : Nat)
  | termPid (pid : Nat)
  deriving DecidableEq, Repr

/-- `stopServer(path)`: `false` and no signals when the registry has no
entry; otherwise kill attach processes, signal the tracked handle if still
held (and untrack it) or else the recorded pid, mark the entry stopped,
remove it, and return `true`.  `killOk` is the environment's answer to each
signal delivery (`process.kill` succeeding or throwing); the code swallows
it, so it influences nothing. -/
def stopServer (killOk : Nat → Bool) (s : Shared) (path : String) :
    Bool × Shared × List SigEv :=
  match alookup s.reg path with
  | none => (false, s, [])
  | some en =>
    let sigs :=
      match alookup s.procs path with
      | some pid => [SigEv.attachKill en.port, SigEv.termProc pid]
      | none => [SigEv.attachKill en.port, SigEv.termPid en.pid]
    let procs1 :=
      match alookup s.procs path with
      | some _ => aremove s.procs path
      | none => s.procs
    let s1 := { s with procs := procs1,
                       reg := rgUpdate s.reg path ⟨some .stopped, none⟩ s.clock,
                       clock := s.clock + 1 }
    (true, { s1 with reg := aremove s1.reg path }, sigs)

/-! ## Event hub (addConnection / broadcast / startEventForwarding)

The hub keeps two module-level maps: `connections` (path → set of SSE
response sinks, here sink ids) and `activeStreams` (path → AbortController
of the forwarding loop registered for the path).  Each controller belongs to
one invocation of `startEventForwarding`; the invocation's upstream stream
is "open" from the `client.event.subscribe()` until its for-await loop ends
(break, error, or end).  The hub state machine below has one step per
synchronous block of the source: a subscription, a sink close, one loop
iteration (read) observing an event, an upstream error, and the firing of a
scheduled retry. -/

/-- One upstream forwarding-loop instance: its controller identity `sid`,
its project path, whether its AbortController was aborted, and whether its
upstream stream is still open (the for-await loop still running). -/
structure StreamRec where
  sid : Nat
  path : String
  aborted : Bool
  isOpen : Bool
  deriving DecidableEq, Repr

/-- Hub state: subscriber sets per path, registered controller per path,
every forwarding-loop instance ever started, paths with a scheduled
retry-after-delay, and the controller-id supply. -/
structure HubState where
  connections : List (String × List Nat)
  activeStreams : List (String × Nat)
  streams : List StreamRec
  retries : List String
  nextSid : Nat
  deriving DecidableEq, Repr

/-- Hub actions: a new subscriber arrives (`addConnection`), a subscriber's
response closes (`res.on("close")`), the forwarding loop of stream `sid`
reads one upstream event, the upstream stream of `sid` fails, a scheduled
retry timer fires. -/
inductive HAct where
  | sub (path : String) (sink : Nat)
  | close (path : String) (sink : Nat)
  | read (sid : Nat)
  | errUp (sid : Nat)
  | retryFire (path : String)
  deriving DecidableEq, Repr

/-- Find a forwarding-loop instance by controller id. -/
def findStream : List StreamRec → Nat → Option StreamRec
  | [], _ => none
  | st :: r, sid => if st.sid = sid then some st else findStream r sid

/-- Set the aborted flag of controller `sid` (`controller.abort()`). -/
def abortStream : List StreamRec → Nat → List StreamRec
  | [], _ => []
  | st :: r, sid =>
    if st.sid = sid then { st with aborted := true } :: r
    else st :: abortStream r sid

/-- Mark the upstream stream of `sid` closed (its for-await loop returned). -/
def closeStream : List StreamRec → Nat → List StreamRec
  | [], _ => []
  | st :: r, sid =>
    if st.sid = sid then { st with isOpen := false } :: r
    else st :: closeStream r sid

/-- Synchronous prefix of `startEventForwarding(path)`: bail out unless the
registry shows a running server (`running` is that registry test, fixed in
the environment); otherwise create a controller, register it in
`activeStreams`, and open the upstream stream. -/
def startFwd (running : String → Bool) (s : HubState) (path : String) : HubState :=
  if running path then
    { s with nextSid := s.nextSid + 1,
             activeStreams := aset s.activeStreams path s.nextSid,
             streams := s.streams ++ [⟨s.nextSid, path, false, true⟩] }
  else s

/-- One hub step; see `HAct` for the actions.
- `sub`: add the sink to the path's set (a JS Set: no duplicates), then
  start forwarding unless a controller is already registered for the path;
- `close`: remove the sink; if the set became empty, drop the set, abort the
  registered controller (if any) and deregister it;
- `read`: the loop first checks its abort flag (break), then broadcasts (no
  effect on this state), then breaks if the path has no subscriber set; on a
  break the finally clause deregisters whatever controller is registered for
  the path;
- `errUp`: the loop dies; unless it was aborted, a retry is scheduled; the
  finally clause deregisters the path's registered controller;
- `retryFire`: a scheduled retry runs `startEventForwarding` again only if
  the path still has subscribers and no registered controller. -/
def hstep (running : String → Bool) (s : HubState) : HAct → HubState
  | .sub path sink =>
    let conns :=
      match alookup s.connections path with
      | none => aset s.connections path [sink]
      | some l => if sink ∈ l then s.connections else aset s.connections path (l ++ [sink])
    let s1 := { s with connections := conns }
    if (alookup s1.activeStreams path).isSome then s1 else startFwd running s1 path
  | .close path sink =>
    match alookup s.connections path with
    | none => s
    | some l =>
      let l1 := l.erase sink
      if l1.isEmpty then
        let s1 := { s with connections := aremove s.connections path }
        match alookup s1.activeStreams path with
        | some sid =>
          { s1 with streams := abortStream s1.streams sid,
                    activeStreams := aremove s1.activeStreams path }
        | none => s1
      else { s with connections := aset s.connections path l1 }
  | .read sid =>
    match findStream s.streams sid with
    | none => s
    | some st =>
      if st.isOpen then
        if st.aborted then
          { s with streams := closeStream s.streams sid,
                   activeStreams := aremove s.activeStreams st.path }
        else if (alookup s.connections st.path).isNone then
          { s with streams := closeStream s.streams sid,
                   activeStreams := aremove s.activeStreams st.path }
        else s
      else s
  | .errUp sid =>
    match findStream s.streams sid with
    | none => s
    | some st =>
      if st.isOpen then
        let s1 := { s with streams := closeStream s.streams sid }
        let s2 := if st.aborted then s1 else { s1 with retries := s1.retries ++ [st.path] }
        { s2 with activeStreams := aremove s2.activeStreams st.path }
      else s
  | .retryFire path =>
    if path ∈ s.retries then
      let s1 := { s with retries := s.retries.erase path }
      if (alookup s1.connections path).isSome ∧ (alookup s1.activeStreams path).isNone then
        startFwd running s1 path
      else s1
    else s

/-- Run a sequence of hub actions. -/
def hrun (running : String → Bool) (s : HubState) (acts : List HAct) : HubState :=
  acts.foldl (hstep running) s

/-- Hub state at module load: both maps empty. -/
def hubInit : HubState := ⟨[], [], [], [], 0⟩

/-- Forwarding-loop instances for `path` whose upstream stream is open and
whose controller was never aborted. -/
def openNonAborted (s : HubState) (path : String) : List StreamRec :=
  s.streams.filter (fun st => st.path = path && st.isOpen && !st.aborted)

/-! ## Forwarding-loop event filter (startEventForwarding body / broadcast) -/

/-- One upstream event: its `type` tag and an opaque `properties` payload. -/
structure REv where
  type : String
  props : Nat
  deriving DecidableEq, Repr

/-- The fixed allow-list test of the forwarding loop: message lifecycle,
part update, permission request, session update. -/
def allowedEvent (t : String) : Bool :=
  t = "message.created" || t = "message.updated" || t = "message.completed" ||
  t = "part.updated" || t = "permission.requested" || t = "session.updated"

/-- `broadcast(path, event, data)`: write attempts to every sink of the
path's set (none when the set is absent); the per-sink try/catch records a
failure for sinks whose write throws (`writeOk` false) and continues. -/
def broadcast (conns : List (String × List Nat)) (writeOk : Nat → Bool)
    (path : String) (e : REv) : List (REv × Nat) × List (REv × Nat) :=
  match alookup conns path with
  | none => ([], [])
  | some sinks => (sinks.map (fun sk => (e, sk)), (sinks.filter (fun sk => !writeOk sk)).map (fun sk => (e, sk)))

/-- The for-await body of `startEventForwarding` over a list of upstream
events, with the subscriber map and abort flag held fixed (no subscription
change interleaves): an aborted loop breaks before broadcasting; an allowed
event is broadcast to every current sink; after each event the loop breaks
when the path has no subscriber set.  Returns (write attempts, logged write
failures). -/
def forwardLoop (conns : List (String × List Nat)) (writeOk : Nat → Bool)
    (path : String) (aborted : Bool) : List REv → List (REv × Nat) × List (REv × Nat)
  | [] => ([], [])
  | e :: rest =>
    if aborted then ([], [])
    else
      let br := if allowedEvent e.type then broadcast conns writeOk path e else ([], [])
      if (alookup conns path).isSome then
        match forwardLoop conns writeOk path aborted rest with
        | (ats, fls) => (br.1 ++ ats, br.2 ++ fls)
      else br

/-! ## Concrete environments and states used by witnesses and
counterexamples -/

/-- All-permissive environment: every port bindable, every port healthy,
every spawn yields pid 7. -/
def envAll : Env := ⟨fun _ => true, fun _ => true, fun _ _ => some 7⟩

/-- Environment where no worker ever reports healthy but spawns succeed. -/
def envNoHealth : Env := ⟨fun _ => false, fun _ => true, fun _ _ => some 7⟩

/-- Environment where the spawn itself fails (no pid; ENOENT-style error
event pending). -/
def envNoSpawn : Env := ⟨fun _ => false, fun _ => true, fun _ _ => none⟩

/-- A registry entry in status `error` on port 4200: the state left behind by
a health timeout after which the worker came up late, so that a live probe
against its port now succeeds. -/
def entryErr4200 : Entry := ⟨4200, 7, .error, false, none, none, none, none, 0, 0⟩

/-- Manager state holding only that errored entry. -/
def sErr4200 : Shared := ⟨[("p", entryErr4200)], [], 4097, 1, []⟩

/-- A running registry entry on port 4097 with pid 7. -/
def entryRun4097 : Entry := ⟨4097, 7, .running, false, none, none, none, none, 0, 0⟩

/-- Manager state holding that running entry and tracking its process. -/
def sRun4097 : Shared := ⟨[("p", entryRun4097)], [("p", 7)], 4098, 1, []⟩

/-! # Lemmas -/

/-! ## Port scan helpers -/

theorem mem_sortAsc (a : Nat) (l : List Nat) : a ∈ sortAsc l ↔ a ∈ l :=
  (List.perm_insertionSort (· ≤ ·) l).mem_iff

theorem sorted_sortAsc (l : List Nat) : List.Sorted (· ≤ ·) (sortAsc l) :=
  List.sorted_insertionSort (· ≤ ·) l

theorem linePort_range (l : PsLine) (p : Nat) (h : linePort l = some p) :
    4000 ≤ p ∧ p ≤ 5000 := by
  unfold linePort at h
  by_cases hg : (l.hasOpencodeServe && l.hasPortFlag && !l.hasGrep) = true
  · rw [if_pos hg] at h
    cases hpa : l.portArg with
    | none => rw [hpa] at h; cases h
    | some q =>
      rw [hpa] at h
      have h2 : (if 4000 ≤ q ∧ q ≤ 5000 then some q else none) = some p := h
      by_cases hr : 4000 ≤ q ∧ q ≤ 5000
      · rw [if_pos hr] at h2; cases h2; exact hr
      · rw [if_neg hr] at h2; cases h2
  · rw [if_neg hg] at h; cases h

theorem linePort_none_of_out_of_range (l : PsLine) (pt : Nat)
    (hpa : l.portArg = some pt) (hout : pt < 4000 ∨ 5000 < pt) :
    linePort l = none := by
  unfold linePort
  by_cases hg : (l.hasOpencodeServe && l.hasPortFlag && !l.hasGrep) = true
  · rw [if_pos hg, hpa]
    have hnr : ¬ (4000 ≤ pt ∧ pt ≤ 5000) := by omega
    show (if 4000 ≤ pt ∧ pt ≤ 5000 then some pt else none) = none
    rw [if_neg hnr]
  · rw [if_neg hg]

/-! ## Assoc-map lemmas -/

theorem alookup_aset_self {α : Type} (p : String) (v : α) :
    ∀ l, alookup (aset l p v) p = some v := by
  intro l
  induction l with
  | nil => simp [aset, alookup]
  | cons kv r ih =>
    obtain ⟨k, w⟩ := kv
    by_cases hk : k = p
    · simp [aset, hk, alookup]
    · simp [aset, hk, alookup, ih]

theorem alookup_eq_none_of_not_mem {α : Type} (p : String) :
    ∀ l : List (String × α), p ∉ l.map Prod.fst → alookup l p = none := by
  intro l
  induction l with
  | nil => intro _; rfl
  | cons kv r ih =>
    obtain ⟨k, w⟩ := kv
    intro h
    simp only [List.map_cons, List.mem_cons, not_or] at h
    have hk : ¬ k = p := fun hkp => h.1 hkp.symm
    simp only [alookup, if_neg hk]
    exact ih h.2

theorem alookup_aremove_self {α : Type} (p : String) :
    ∀ l : List (String × α), (l.map Prod.fst).Nodup →
      alookup (aremove l p) p = none := by
  intro l
  induction l with
  | nil => intro _; rfl
  | cons kv r ih =>
    obtain ⟨k, w⟩ := kv
    intro hnd
    simp only [List.map_cons, List.nodup_cons] at hnd
    by_cases hk : k = p
    · simp only [aremove, if_pos hk]
      subst hk
      exact alookup_eq_none_of_not_mem k r hnd.1
    · simp only [aremove, if_neg hk, alookup, if_neg hk]
      exact ih hnd.2

theorem mem_keys_aset {α : Type} (q p : String) (v : α) :
    ∀ l, q ∈ (aset l p v).map Prod.fst ↔ q = p ∨ q ∈ l.map Prod.fst := by
  intro l
  induction l with
  | nil => simp [aset]
  | cons kv r ih =>
    obtain ⟨k, w⟩ := kv
    by_cases hk : k = p
    · subst hk
      simp only [aset, if_pos rfl, if_true, List.map_cons, List.mem_cons]
      tauto
    · simp only [aset, if_neg hk, List.map_cons, List.mem_cons, ih]
      tauto

theorem nodup_keys_aset {α : Type} (p : String) (v : α) :
    ∀ l : List (String × α), (l.map Prod.fst).Nodup →
      ((aset l p v).map Prod.fst).Nodup := by
  intro l
  induction l with
  | nil => intro _; simp [aset]
  | cons kv r ih =>
    obtain ⟨k, w⟩ := kv
    intro hnd
    simp only [List.map_cons, List.nodup_cons] at hnd
    by_cases hk : k = p
    · subst hk
      simp only [aset, if_pos rfl, if_true, List.map_cons, List.nodup_cons]
      exact hnd
    · simp only [aset, if_neg hk, List.map_cons, List.nodup_cons]
      refine ⟨?_, ih hnd.2⟩
      intro hmem
      rcases (mem_keys_aset k p v r).mp hmem with h | h
      · exact hk h
      · exact hnd.1 h

theorem mem_keys_aremove {α : Type} (q p : String) :
    ∀ l : List (String × α), q ∈ (aremove l p).map Prod.fst → q ∈ l.map Prod.fst := by
  intro l
  induction l with
  | nil => intro h; simp [aremove] at h
  | cons kv r ih =>
    obtain ⟨k, w⟩ := kv
    intro h
    by_cases hk : k = p
    · simp only [aremove, if_pos hk] at h
      simp only [List.map_cons, List.mem_cons]
      exact Or.inr h
    · simp only [aremove, if_neg hk, List.map_cons, List.mem_cons] at h
      simp only [List.map_cons, List.mem_cons]
      rcases h with h | h
      · exact Or.inl h
      · exact Or.inr (ih h)

theorem nodup_keys_aremove {α : Type} (p : String) :
    ∀ l : List (String × α), (l.map Prod.fst).Nodup →
      ((aremove l p).map Prod.fst).Nodup := by
  intro l
  induction l with
  | nil => intro _; simp [aremove]
  | cons kv r ih =>
    obtain ⟨k, w⟩ := kv
    intro hnd
    simp only [List.map_cons, List.nodup_cons] at hnd
    by_cases hk : k = p
    · simp only [aremove, if_pos hk]
      exact hnd.2
    · simp only [aremove, if_neg hk, List.map_cons, List.nodup_cons]
      exact ⟨fun hm => hnd.1 (mem_keys_aremove k p r hm), ih hnd.2⟩

theorem nodup_keys_rgUpdate (r : List (String × Entry)) (p : String)
    (pa : Patch) (now : Nat) (hnd : (r.map Prod.fst).Nodup) :
    ((rgUpdate r p pa now).map Prod.fst).Nodup := by
  unfold rgUpdate
  cases alookup r p with
  | none => exact hnd
  | some e => exact nodup_keys_aset p _ r hnd

theorem alookup_rgUpdate_self (r : List (String × Entry)) (p : String)
    (pa : Patch) (now : Nat) :
    alookup (rgUpdate r p pa now) p = (alookup r p).map (fun e => applyPatch e pa now) := by
  unfold rgUpdate
  cases h : alookup r p with
  | none => simp [h]
  | some e => simp [alookup_aset_self]

/-! ## findFrom / findAvailablePort -/

theorem findFrom_some (free : Nat → Bool) :
    ∀ fuel start p, findFrom free fuel start = some p →
      free p = true ∧ start ≤ p ∧ p < start + fuel ∧
        ∀ q, start ≤ q → q < p → free q = false := by
  intro fuel
  induction fuel with
  | zero => intro start p h; simp [findFrom] at h
  | succ f ih =>
    intro start p h
    unfold findFrom at h
    by_cases hf : free start = true
    · rw [if_pos hf] at h
      cases h
      exact ⟨hf, le_refl _, by omega, fun q hq1 hq2 => by omega⟩
    · rw [if_neg hf] at h
      obtain ⟨h1, h2, h3, h4⟩ := ih (start + 1) p h
      refine ⟨h1, by omega, by omega, ?_⟩
      intro q hq1 hq2
      by_cases hq : q = start
      · subst hq; simpa using hf
      · exact h4 q (by omega) hq2

theorem findFrom_none (free : Nat → Bool) :
    ∀ fuel start, (∀ q, start ≤ q → q < start + fuel → free q = false) →
      findFrom free fuel start = none := by
  intro fuel
  induction fuel with
  | zero => intro start _; rfl
  | succ f ih =>
    intro start h
    unfold findFrom
    have hs : free start = false := h start (le_refl _) (by omega)
    rw [hs]
    simp
    exact ih (start + 1) (fun q hq1 hq2 => h q (by omega) (by omega))

theorem findFrom_first (free : Nat → Bool) (f start : Nat) (h : free start = true) :
    findFrom free (f + 1) start = some start := by
  unfold findFrom
  rw [h]
  simp

theorem findAvailablePort_first (free : Nat → Bool) (c m : Nat)
    (hcm : c ≤ m) (h : free c = true) :
    findAvailablePort free c m = some c := by
  unfold findAvailablePort
  have he : m + 1 - c = (m - c) + 1 := by omega
  rw [he]
  exact findFrom_first free (m - c) c h

/-! ## Forwarding loop -/

theorem forwardLoop_attempts (conns : List (String × List Nat)) (writeOk : Nat → Bool)
    (path : String) (sinks : List Nat) (hconns : alookup conns path = some sinks) :
    ∀ events, (forwardLoop conns writeOk path false events).1 =
      events.flatMap (fun e =>
        if allowedEvent e.type then sinks.map (fun sk => (e, sk)) else []) := by
  intro events
  induction events with
  | nil => rfl
  | cons e rest ih =>
    by_cases ha : allowedEvent e.type = true
    · simp [forwardLoop, broadcast, hconns, ha, ih]
    · simp [forwardLoop, broadcast, hconns, ha, ih]

theorem forwardLoop_failures (conns : List (String × List Nat)) (writeOk : Nat → Bool)
    (path : String) (sinks : List Nat) (hconns : alookup conns path = some sinks) :
    ∀ events, (forwardLoop conns writeOk path false events).2 =
      events.flatMap (fun e =>
        if allowedEvent e.type then
          (sinks.filter (fun sk => !writeOk sk)).map (fun sk => (e, sk))
        else []) := by
  intro events
  induction events with
  | nil => rfl
  | cons e rest ih =>
    by_cases ha : allowedEvent e.type = true
    · simp [forwardLoop, broadcast, hconns, ha, ih]
    · simp [forwardLoop, broadcast, hconns, ha, ih]

/-! ## Hub state machine -/

theorem findStream_abortStream_aborted (sid : Nat) :
    ∀ l st, findStream (abortStream l sid) sid = some st → st.aborted = true := by
  intro l
  induction l with
  | nil => intro st h; cases h
  | cons hd r ih =>
    obtain ⟨hsid, hpath, hab, hopen⟩ := hd
    intro st h
    by_cases hs : hsid = sid
    · simp only [abortStream, findStream, if_pos hs] at h
      cases h
      rfl
    · simp only [abortStream, findStream, if_neg hs] at h
      exact ih st h

theorem startFwd_nodup_active (running : String → Bool) (s : HubState) (path : String)
    (hnd : (s.activeStreams.map Prod.fst).Nodup) :
    (((startFwd running s path).activeStreams).map Prod.fst).Nodup := by
  unfold startFwd
  by_cases hr : running path = true
  · rw [if_pos hr]
    exact nodup_keys_aset path s.nextSid s.activeStreams hnd
  · rw [if_neg hr]
    exact hnd

theorem hstep_nodup_active (running : String → Bool) (s : HubState) (a : HAct)
    (hnd : (s.activeStreams.map Prod.fst).Nodup) :
    ((hstep running s a).activeStreams.map Prod.fst).Nodup := by
  cases a with
  | sub path sink =>
    simp only [hstep]
    split
    · exact hnd
    · exact startFwd_nodup_active running _ path hnd
  | close path sink =>
    simp only [hstep]
    split
    · exact hnd
    · split
      · split
        · exact nodup_keys_aremove path s.activeStreams hnd
        · exact hnd
      · exact hnd
  | read sid =>
    simp only [hstep]
    split
    · exact hnd
    · split
      · split
        · exact nodup_keys_aremove _ s.activeStreams hnd
        · split
          · exact nodup_keys_aremove _ s.activeStreams hnd
          · exact hnd
      · exact hnd
  | errUp sid =>
    simp only [hstep]
    split
    · exact hnd
    · split
      · split
        · exact nodup_keys_aremove _ _ hnd
        · exact nodup_keys_aremove _ _ hnd
      · exact hnd
  | retryFire path =>
    simp only [hstep]
    split
    · split
      · exact startFwd_nodup_active running _ path hnd
      · exact hnd
    · exact hnd

theorem hrun_nodup_active (running : String → Bool) :
    ∀ acts s, (s.activeStreams.map Prod.fst).Nodup →
      ((hrun running s acts).activeStreams.map Prod.fst).Nodup := by
  intro acts
  induction acts with
  | nil => intro s h; exact h
  | cons a r ih =>
    intro s h
    exact ih (hstep running s a) (hstep_nodup_active running s a h)

/-! # Claim theorems -/

/-- C5: port allocation returns the first candidate port, scanning upward
from the starting cursor, that the bind probe reports free; when no port of
the fixed range [4097, 4196] is free (the cursor never moves below 4097) the
scan fails, modelling the thrown PortExhausted error; and with 4097 occupied
and 4098 free, the scan starting at the base cursor returns 4098. -/
theorem c5_port_allocation (free : Nat → Bool) (c m : Nat) :
    (∀ p, findAvailablePort free c m = some p →
      free p = true ∧ c ≤ p ∧ p ≤ m ∧ ∀ q, c ≤ q → q < p → free q = false) ∧
    ((∀ q, 4097 ≤ q → q ≤ 4196 → free q = false) → 4097 ≤ c →
      findAvailablePort free c 4196 = none) ∧
    findAvailablePort (fun p => decide (p ≠ 4097)) 4097 4196 = some 4098 := by
  refine ⟨?_, ?_, by decide⟩
  · intro p h
    obtain ⟨h1, h2, h3, h4⟩ := findFrom_some free (m + 1 - c) c p h
    exact ⟨h1, h2, by omega, h4⟩
  · intro hall hc
    unfold findAvailablePort
    exact findFrom_none free (4196 + 1 - c) c
      (fun q hq1 hq2 => hall q (by omega) (by omega))

/-- Witness for C5 at concrete inputs: the first-fit conclusion at the
two-port environment, and exhaustion when every port is busy. -/
theorem c5_witness :
    ((fun p => decide (p ≠ 4097)) 4098 = true ∧ 4097 ≤ 4098 ∧ 4098 ≤ 4196 ∧
      ∀ q, 4097 ≤ q → q < 4098 → (fun p => decide (p ≠ 4097)) q = false) ∧
    findAvailablePort (fun _ => false) 4097 4196 = none := by
  constructor
  · exact (c5_port_allocation (fun p => decide (p ≠ 4097)) 4097 4196).1 4098 (by decide)
  · exact (c5_port_allocation (fun _ => false) 4097 4196).2.1
      (fun q hq1 hq2 => rfl) (by omega)

/-- C6: the health probe reports healthy exactly when the HTTP response is ok
and its parsed body is an object whose `healthy` field is the boolean `true`;
a 2xx response without that field, a body of any other shape, a body that
failed to parse, and a transport failure all yield false.  `checkHealth` is a
total function into Bool, so the probe never throws. -/
theorem c6_health_probe (r : FetchResult) :
    checkHealth r = true ↔
      ∃ fields, r = .success true (some (.obj fields)) ∧
        alookup fields "healthy" = some (.bool true) := by
  constructor
  · intro h
    cases r with
    | failure => simp [checkHealth] at h
    | success ok body =>
      cases ok with
      | false => simp [checkHealth] at h
      | true =>
        cases body with
        | none => simp [checkHealth] at h
        | some j =>
          cases j with
          | obj fields =>
            refine ⟨fields, rfl, ?_⟩
            simp [checkHealth, healthyFieldTrue] at h
            cases hl : alookup fields "healthy" with
            | none => rw [hl] at h; exact absurd h (by simp)
            | some v =>
              rw [hl] at h
              cases v with
              | bool b =>
                cases b with
                | true => rfl
                | false => exact absurd h (by simp)
              | null => exact absurd h (by simp)
              | num n => exact absurd h (by simp)
              | str s => exact absurd h (by simp)
              | arr a => exact absurd h (by simp)
              | obj o => exact absurd h (by simp)
          | null => simp [checkHealth, healthyFieldTrue] at h
          | bool b => simp [checkHealth, healthyFieldTrue] at h
          | num n => simp [checkHealth, healthyFieldTrue] at h
          | str s => simp [checkHealth, healthyFieldTrue] at h
          | arr a => simp [checkHealth, healthyFieldTrue] at h
  · rintro ⟨fields, rfl, hf⟩
    simp [checkHealth, healthyFieldTrue, hf]

/-- Witness for C6: a concrete ok response carrying `healthy: true` is
reported healthy. -/
theorem c6_witness :
    checkHealth (.success true (some (.obj [("healthy", .bool true)]))) = true :=
  (c6_health_probe _).mpr ⟨[("healthy", .bool true)], rfl, rfl⟩

/-- C10: the process-table scan only reports ports in [4000, 5000]; its
result is sorted ascending; a failed `ps aux` read yields the empty list; and
a line whose `--port` argument falls outside the range contributes nothing —
neither to the scan result nor to the cursor `initializePortAllocation`
computes from it. -/
theorem c10_port_scan (ps : Option (List PsLine)) :
    (∀ p, p ∈ scanExistingOpenCodePorts ps → 4000 ≤ p ∧ p ≤ 5000) ∧
    List.Sorted (· ≤ ·) (scanExistingOpenCodePorts ps) ∧
    scanExistingOpenCodePorts none = [] ∧
    (∀ (l : PsLine) (lines : List PsLine) (pt : Nat),
      l.portArg = some pt → (pt < 4000 ∨ 5000 < pt) →
      scanExistingOpenCodePorts (some (l :: lines)) =
        scanExistingOpenCodePorts (some lines) ∧
      ∀ c, initializePortAllocation (some (l :: lines)) c =
        initializePortAllocation (some lines) c) := by
  refine ⟨?_, ?_, rfl, ?_⟩
  · intro p hp
    cases ps with
    | none => simp [scanExistingOpenCodePorts] at hp
    | some lines =>
      simp only [scanExistingOpenCodePorts] at hp
      rw [mem_sortAsc] at hp
      obtain ⟨l, hmem, hl⟩ := List.mem_filterMap.mp hp
      exact linePort_range l p hl
  · cases ps with
    | none => simp [scanExistingOpenCodePorts]
    | some lines => exact sorted_sortAsc (lines.filterMap linePort)
  · intro l lines pt hpa hout
    have hnone : linePort l = none := linePort_none_of_out_of_range l pt hpa hout
    have hscan : scanExistingOpenCodePorts (some (l :: lines)) =
        scanExistingOpenCodePorts (some lines) := by
      simp [scanExistingOpenCodePorts, List.filterMap_cons, hnone]
    exact ⟨hscan, fun c => by simp [initializePortAllocation, hscan]⟩

/-- The timeout path of `waitForServer`: when the port never reports healthy,
the poll loop burns its fuel, marks the entry `error` and rejects with
HealthTimeout, leaving the rest of the state untouched. -/
theorem steps_waitLoop_timeout (env : Env) (path : String) (port : Nat)
    (hh : env.healthy port = false) :
    ∀ f s, Steps env path (.waitLoop port f) s (.err .healthTimeout)
      { s with reg := rgUpdate s.reg path ⟨some .error, none⟩ s.clock,
               clock := s.clock + 1 } := by
  intro f
  induction f with
  | zero => intro s; exact .step (by simp [stepE, hh]) .done
  | succ f ih => intro s; exact .step (by simp [stepE, hh]) (ih s)

/-- C1 counterexample: a state whose registry entry for "p" (port 4200,
status `error` after a health timeout) has a worker that passes a live
health probe (the environment reports every port healthy).  The claim says
`ensure("p")` must return the entry's port 4200 without spawning or
allocating; instead `startServer` — which only short-circuits on status
`running` — allocates fresh port 4097 and spawns a second worker. -/
theorem c1_counterexample :
    envAll.healthy entryErr4200.port = true ∧
    alookup sErr4200.reg "p" = some entryErr4200 ∧
    (runE envAll "p" 4 .start sErr4200).1 = .done (.ok 4097) ∧
    4097 ≠ entryErr4200.port ∧
    (runE envAll "p" 4 .start sErr4200).2.spawnLog = [("p", 4097)] := by decide

/-- C1 (amended): for a registry entry with status `running` whose worker
passes a live health probe, `startServer` resolves with the entry's existing
port and leaves the state entirely unchanged — no spawn, no allocation, no
registry write.  (For an existing entry in any other status — `starting`,
`stopped` or `error` — the code allocates and spawns even if the worker
would pass the probe; see the counterexample.) -/
theorem c1_ensure_idempotent_running (env : Env) (path : String) (s : Shared)
    (en : Entry) (hget : alookup s.reg path = some en)
    (hst : en.status = .running) (hh : env.healthy en.port = true) :
    Steps env path .start s (.ok en.port) s := by
  have h1 : Steps env path (.healthCheck en.port) s (.ok en.port) s :=
    .step (by simp [stepE, hh]) .done
  exact .step (by simp [stepE, hget, hst]) h1

/-- Witness for C1 (amended) at a concrete running entry: the call resolves
with 4097 and the state is untouched. -/
theorem c1_witness : Steps envAll "p" .start sRun4097 (.ok 4097) sRun4097 :=
  c1_ensure_idempotent_running envAll "p" sRun4097 entryRun4097
    (by decide) (by decide) (by decide)

/-- C2 counterexample: when the spawn fails to produce a pid (the claim's
"spawn errors" case, e.g. the opencode binary missing), `startServer`
resolves successfully with the freshly allocated port instead of rejecting
with SpawnFailure, records no registry entry at all, and the asynchronous
error handler's `status: "error"` update is a no-op on the absent entry. -/
theorem c2_counterexample :
    envNoSpawn.spawnPid "p" 4097 = none ∧
    (runE envNoSpawn "p" 3 .start initShared).1 = .done (.ok 4097) ∧
    (runE envNoSpawn "p" 3 .start initShared).2.reg = [] ∧
    (handleError (runE envNoSpawn "p" 3 .start initShared).2 "p").reg = [] := by decide

/-- C2 (amended): starting from a state with no entry for the path, when the
health poll never succeeds the call rejects with HealthTimeout, the entry's
status becomes `error`, and the entry remains in the registry for
inspection; but when the spawn yields no pid the call resolves successfully
with the allocated port and no entry is recorded — a spawn failure is not
surfaced to the caller. -/
theorem c2_failure_surfacing (env : Env) (path : String) (s : Shared)
    (p pid : Nat) (hnone : alookup s.reg path = none)
    (hfind : findAvailablePort env.free s.nextPort 4196 = some p) :
    (env.spawnPid path p = some pid → env.healthy p = false →
      ∃ s2, Steps env path .start s (.err .healthTimeout) s2 ∧
        ∃ en, alookup s2.reg path = some en ∧ en.status = .error) ∧
    (env.spawnPid path p = none →
      Steps env path .start s (.ok p)
        { s with nextPort := p + 1, spawnLog := s.spawnLog ++ [(path, p)] }) := by
  constructor
  · intro hpid hh
    have hw := steps_waitLoop_timeout env path p hh 49
      { s with procs := aset s.procs path pid,
               reg := aset s.reg path (mkEntry p pid s.clock),
               nextPort := p + 1, clock := s.clock + 1,
               spawnLog := s.spawnLog ++ [(path, p)] }
    have h2 : Steps env path (.allocate s.nextPort) s (.err .healthTimeout) _ :=
      .step (by simp [stepE, hfind, hpid]) hw
    have h3 : Steps env path .start s (.err .healthTimeout) _ :=
      .step (by simp [stepE, hnone]) h2
    refine ⟨_, h3, ?_⟩
    refine ⟨applyPatch (mkEntry p pid s.clock) ⟨some .error, none⟩ (s.clock + 1), ?_, rfl⟩
    show alookup (rgUpdate (aset s.reg path (mkEntry p pid s.clock)) path
      ⟨some .error, none⟩ (s.clock + 1)) path = _
    rw [alookup_rgUpdate_self, alookup_aset_self]
    rfl
  · intro hpid
    have h2 : Steps env path (.allocate s.nextPort) s (.ok p)
        { s with nextPort := p + 1, spawnLog := s.spawnLog ++ [(path, p)] } :=
      .step (by simp [stepE, hfind, hpid]) .done
    exact .step (by simp [stepE, hnone]) h2

/-- Witness for C2 (amended): the health-timeout half at an environment that
never reports healthy, and the spawn-failure half at an environment whose
spawns yield no pid. -/
theorem c2_witness :
    (∃ s2, Steps envNoHealth "p" .start initShared (.err .healthTimeout) s2 ∧
      ∃ en, alookup s2.reg "p" = some en ∧ en.status = .error) ∧
    Steps envNoSpawn "p" .start initShared (.ok 4097)
      { initShared with nextPort := 4098, spawnLog := [("p", 4097)] } := by
  constructor
  · exact (c2_failure_surfacing envNoHealth "p" initShared 4097 7
      (by decide) (by decide)).1 rfl rfl
  · exact (c2_failure_surfacing envNoSpawn "p" initShared 4097 7
      (by decide) (by decide)).2 rfl

/-- C9 counterexample: two interleaved `ensure("p")` calls from the empty
initial state (schedule: A reads the empty registry and captures the cursor;
B then runs to completion; A resumes).  Both calls resolve with port 4097,
but two workers are spawned — `startServer` re-checks nothing between its
registry read and its registry add, so the claim's "spawn exactly one worker
process between them" fails. -/
theorem c9_counterexample :
    (runPair envAll "p" "p" [true, false, false, false, true, true]
        (.start, .start, initShared)).1 = .done (.ok 4097) ∧
    (runPair envAll "p" "p" [true, false, false, false, true, true]
        (.start, .start, initShared)).2.1 = .done (.ok 4097) ∧
    (runPair envAll "p" "p" [true, false, false, false, true, true]
        (.start, .start, initShared)).2.2.spawnLog = [("p", 4097), ("p", 4097)] := by
  decide

/-- C9 (amended): two sequential `ensure(p)` calls — the second starting
after the first resolved, with the worker's port still probing healthy —
spawn exactly one worker between them and both resolve with the same port
4097; the second call leaves the state untouched.  (Truly interleaved calls
can spawn two workers; see the counterexample.) -/
theorem c9_sequential_ensure (env : Env) (path : String) (pid : Nat)
    (hf : env.free 4097 = true) (hh : env.healthy 4097 = true)
    (hs : env.spawnPid path 4097 = some pid) :
    ∃ s1, Steps env path .start initShared (.ok 4097) s1 ∧
      s1.spawnLog = [(path, 4097)] ∧
      Steps env path .start s1 (.ok 4097) s1 := by
  have hfind : findAvailablePort env.free 4097 4196 = some 4097 :=
    findAvailablePort_first env.free 4097 4196 (by omega) hf
  have hA3 : Steps env path (.waitLoop 4097 49)
      ⟨[(path, mkEntry 4097 pid 0)], [(path, pid)], 4098, 1, [(path, 4097)]⟩ (.ok 4097)
      ⟨[(path, ⟨4097, pid, .running, false, none, none, none, none, 0, 1⟩)],
        [(path, pid)], 4098, 2, [(path, 4097)]⟩ :=
    .step (by simp [stepE, hh, rgUpdate, alookup, aset, applyPatch, mkEntry]) .done
  have hA2 : Steps env path (.allocate 4097) initShared (.ok 4097)
      ⟨[(path, ⟨4097, pid, .running, false, none, none, none, none, 0, 1⟩)],
        [(path, pid)], 4098, 2, [(path, 4097)]⟩ :=
    .step (by simp [stepE, initShared, hfind, hs, mkEntry, aset, alookup]) hA3
  have hA1 : Steps env path .start initShared (.ok 4097)
      ⟨[(path, ⟨4097, pid, .running, false, none, none, none, none, 0, 1⟩)],
        [(path, pid)], 4098, 2, [(path, 4097)]⟩ :=
    .step (by simp [stepE, initShared, alookup]) hA2
  have hB2 : Steps env path (.healthCheck 4097)
      ⟨[(path, ⟨4097, pid, .running, false, none, none, none, none, 0, 1⟩)],
        [(path, pid)], 4098, 2, [(path, 4097)]⟩ (.ok 4097)
      ⟨[(path, ⟨4097, pid, .running, false, none, none, none, none, 0, 1⟩)],
        [(path, pid)], 4098, 2, [(path, 4097)]⟩ :=
    .step (by simp [stepE, hh]) .done
  have hB1 : Steps env path .start
      ⟨[(path, ⟨4097, pid, .running, false, none, none, none, none, 0, 1⟩)],
        [(path, pid)], 4098, 2, [(path, 4097)]⟩ (.ok 4097)
      ⟨[(path, ⟨4097, pid, .running, false, none, none, none, none, 0, 1⟩)],
        [(path, pid)], 4098, 2, [(path, 4097)]⟩ :=
    .step (by simp [stepE, alookup]) hB2
  exact ⟨⟨[(path, ⟨4097, pid, .running, false, none, none, none, none, 0, 1⟩)],
      [(path, pid)], 4098, 2, [(path, 4097)]⟩, hA1, rfl, hB1⟩

/-- Witness for C9 (amended) in the all-permissive environment. -/
theorem c9_witness :
    ∃ s1, Steps envAll "p" .start initShared (.ok 4097) s1 ∧
      s1.spawnLog = [("p", 4097)] ∧
      Steps envAll "p" .start s1 (.ok 4097) s1 :=
  c9_sequential_ensure envAll "p" 7 rfl rfl rfl

/-- C3: `stopServer` on an unknown path returns `false`, changes nothing and
delivers no signal at all; on a known path it returns `true` and removes the
registry entry (keys of the JS registry object are unique), and its entire
outcome — result, state and signals — is independent of whether signal
delivery succeeds, since the code swallows delivery errors and never waits
for the process to exit. -/
theorem c3_stop_semantics (killOk : Nat → Bool) (s : Shared) (path : String) :
    (alookup s.reg path = none → stopServer killOk s path = (false, s, [])) ∧
    (∀ en, alookup s.reg path = some en →
      (stopServer killOk s path).1 = true ∧
      ((s.reg.map Prod.fst).Nodup →
        alookup (stopServer killOk s path).2.1.reg path = none) ∧
      ∀ killOk2, stopServer killOk s path = stopServer killOk2 s path) := by
  constructor
  · intro hnone
    unfold stopServer
    rw [hnone]
  · intro en hsome
    refine ⟨?_, ?_, fun killOk2 => rfl⟩
    · unfold stopServer
      rw [hsome]
    · intro hnd
      unfold stopServer
      rw [hsome]
      exact alookup_aremove_self path _
        (nodup_keys_rgUpdate s.reg path ⟨some .stopped, none⟩ s.clock hnd)

/-- Witness for C3: concrete known and unknown paths. -/
theorem c3_witness :
    (stopServer (fun _ => true) ⟨[("p", mkEntry 4097 7 0)], [("p", 7)], 4098, 1, []⟩ "p").1
        = true ∧
    alookup (stopServer (fun _ => true)
        ⟨[("p", mkEntry 4097 7 0)], [("p", 7)], 4098, 1, []⟩ "p").2.1.reg "p" = none ∧
    stopServer (fun _ => true) ⟨[("p", mkEntry 4097 7 0)], [("p", 7)], 4098, 1, []⟩ "p"
        = stopServer (fun _ => false)
            ⟨[("p", mkEntry 4097 7 0)], [("p", 7)], 4098, 1, []⟩ "p" ∧
    stopServer (fun _ => true) initShared "q" = (false, initShared, []) := by
  have h := c3_stop_semantics (fun _ => true)
      ⟨[("p", mkEntry 4097 7 0)], [("p", 7)], 4098, 1, []⟩ "p"
  have h2 := (h.2 (mkEntry 4097 7 0) (by decide))
  exact ⟨h2.1, h2.2.1 (by decide), h2.2.2 (fun _ => false),
    (c3_stop_semantics (fun _ => true) initShared "q").1 (by decide)⟩

/-- C4: the exit observer of a spawned worker removes the path from the
tracked-process map (its keys are unique) and patches the registry entry (if
one is present) to `status: "stopped"`, `sessionId: null`; its effect is the
same function for every exit code, zero, non-zero or null — the code is only
logged. -/
theorem c4_exit_handler (s : Shared) (path : String) (code : Option Int) :
    ((s.procs.map Prod.fst).Nodup →
      alookup (handleExit s path code).procs path = none) ∧
    (∀ en, alookup s.reg path = some en →
      alookup (handleExit s path code).reg path =
        some (applyPatch en ⟨some .stopped, some none⟩ s.clock) ∧
      (applyPatch en ⟨some .stopped, some none⟩ s.clock).status = .stopped ∧
      (applyPatch en ⟨some .stopped, some none⟩ s.clock).sessionId = none) ∧
    ∀ code2, handleExit s path code = handleExit s path code2 := by
  refine ⟨?_, ?_, fun code2 => rfl⟩
  · intro hnd
    exact alookup_aremove_self path s.procs hnd
  · intro en hsome
    refine ⟨?_, rfl, rfl⟩
    show alookup (rgUpdate s.reg path ⟨some .stopped, some none⟩ s.clock) path = _
    rw [alookup_rgUpdate_self, hsome]
    rfl

/-- Witness for C4: a worker that exited immediately with code 1 before ever
becoming healthy: the entry (still `starting`) goes to `stopped` with
`sessionId` cleared, the pid is untracked, and code 1 acts like code 0. -/
theorem c4_witness :
    alookup (handleExit ⟨[("p", mkEntry 4097 7 0)], [("p", 7)], 4098, 1, []⟩
        "p" (some 1)).procs "p" = none ∧
    alookup (handleExit ⟨[("p", mkEntry 4097 7 0)], [("p", 7)], 4098, 1, []⟩
        "p" (some 1)).reg "p" =
      some (applyPatch (mkEntry 4097 7 0) ⟨some .stopped, some none⟩ 1) ∧
    handleExit ⟨[("p", mkEntry 4097 7 0)], [("p", 7)], 4098, 1, []⟩ "p" (some 1) =
      handleExit ⟨[("p", mkEntry 4097 7 0)], [("p", 7)], 4098, 1, []⟩ "p" (some 0) := by
  have h := c4_exit_handler ⟨[("p", mkEntry 4097 7 0)], [("p", 7)], 4098, 1, []⟩
      "p" (some 1)
  exact ⟨h.1 (by decide), (h.2.1 (mkEntry 4097 7 0) (by decide)).1, h.2.2 (some 0)⟩

/-- Witness for C10: a surviving worker line advertising port 9000 is
invisible to the scan and leaves the recovered cursor unchanged. -/
theorem c10_witness :
    scanExistingOpenCodePorts
        (some [⟨true, true, false, some 9000⟩, ⟨true, true, false, some 4100⟩]) =
      scanExistingOpenCodePorts (some [⟨true, true, false, some 4100⟩]) ∧
    initializePortAllocation
        (some [⟨true, true, false, some 9000⟩, ⟨true, true, false, some 4100⟩]) 4097 =
      initializePortAllocation (some [⟨true, true, false, some 4100⟩]) 4097 := by
  have h := (c10_port_scan
      (some [⟨true, true, false, some 9000⟩, ⟨true, true, false, some 4100⟩])).2.2.2
      ⟨true, true, false, some 9000⟩ [⟨true, true, false, some 4100⟩] 9000 rfl
      (Or.inr (by omega))
  exact ⟨h.1, h.2 4097⟩

/-- C7: with a fixed subscriber set for the path and the loop not aborted,
the forwarding loop attempts a write of event `e` to sink `sk` exactly when
`e`'s type tag is in the fixed allow-list and `sk` is a current sink (other
events are silently dropped); a sink whose write throws is recorded in the
failure log; and the write attempts — including delivery to every other sink
and the processing of all later events — are the same whatever subset of
sinks fails. -/
theorem c7_forwarding (conns : List (String × List Nat)) (writeOk : Nat → Bool)
    (path : String) (sinks : List Nat) (events : List REv)
    (hconns : alookup conns path = some sinks) :
    (forwardLoop conns writeOk path false events).1 =
      events.flatMap (fun e =>
        if allowedEvent e.type then sinks.map (fun sk => (e, sk)) else []) ∧
    (forwardLoop conns writeOk path false events).2 =
      events.flatMap (fun e =>
        if allowedEvent e.type then
          (sinks.filter (fun sk => !writeOk sk)).map (fun sk => (e, sk))
        else []) ∧
    ∀ writeOk2, (forwardLoop conns writeOk path false events).1 =
      (forwardLoop conns writeOk2 path false events).1 :=
  ⟨forwardLoop_attempts conns writeOk path sinks hconns events,
   forwardLoop_failures conns writeOk path sinks hconns events,
   fun writeOk2 => (forwardLoop_attempts conns writeOk path sinks hconns events).trans
     (forwardLoop_attempts conns writeOk2 path sinks hconns events).symm⟩

/-- Witness for C7: two sinks, sink 1 failing; an allowed event, a dropped
`storage.write` event, and a later allowed event — the attempts match the
allow-list filter and are unchanged when no sink fails. -/
theorem c7_witness :
    (forwardLoop [("p", [1, 2])] (fun sk => decide (sk ≠ 1)) "p" false
        [⟨"message.updated", 0⟩, ⟨"storage.write", 1⟩, ⟨"part.updated", 2⟩]).1 =
      [REv.mk "message.updated" 0, ⟨"storage.write", 1⟩, ⟨"part.updated", 2⟩].flatMap
        (fun e => if allowedEvent e.type then [1, 2].map (fun sk => (e, sk)) else []) ∧
    (forwardLoop [("p", [1, 2])] (fun sk => decide (sk ≠ 1)) "p" false
        [⟨"message.updated", 0⟩, ⟨"storage.write", 1⟩, ⟨"part.updated", 2⟩]).1 =
      (forwardLoop [("p", [1, 2])] (fun _ => true) "p" false
        [⟨"message.updated", 0⟩, ⟨"storage.write", 1⟩, ⟨"part.updated", 2⟩]).1 := by
  have h := c7_forwarding [("p", [1, 2])] (fun sk => decide (sk ≠ 1)) "p" [1, 2]
    [⟨"message.updated", 0⟩, ⟨"storage.write", 1⟩, ⟨"part.updated", 2⟩] (by decide)
  exact ⟨h.1, h.2.2 (fun _ => true)⟩

/-- C8 counterexample: the run `[sub p 1, close p 1, sub p 2, read 0,
close p 2]` from the empty hub.  Unsubscribing sink 1 aborts stream 0 but
stream 0's loop only notices at its next read, whose finally-clause then
deletes stream 1's `activeStreams` registration.  When sink 2 — the last
subscriber — unsubscribes, no controller is registered, so stream 1 stays
open and unaborted: the claim's "last unsubscribe cancels the upstream
stream" fails.  One more subscription then opens stream 2 while stream 1 is
still open and unaborted: two upstream streams open for one path, against
the claim's "at most one upstream stream open at any time". -/
theorem c8_counterexample :
    (alookup (hrun (fun _ => true) hubInit
        [.sub "p" 1, .close "p" 1, .sub "p" 2, .read 0, .close "p" 2]).connections "p"
        = none ∧
      openNonAborted (hrun (fun _ => true) hubInit
        [.sub "p" 1, .close "p" 1, .sub "p" 2, .read 0, .close "p" 2]) "p" =
        [⟨1, "p", false, true⟩]) ∧
    openNonAborted (hrun (fun _ => true) hubInit
        [.sub "p" 1, .close "p" 1, .sub "p" 2, .read 0, .close "p" 2, .sub "p" 3]) "p" =
      [⟨1, "p", false, true⟩, ⟨2, "p", false, true⟩] := by decide

/-- C8 (amended): stated on the hub's controller registry rather than on the
open streams.  (1) In every run from the initial hub state, `activeStreams`
registers at most one controller per path.  (2) When a close makes the
path's subscriber set empty, the registered controller — if any — is aborted
and deregistered.  (3) A firing retry never starts forwarding when the path
has no subscriber set or already has a registered controller.  (A loop whose
registration was lost can remain open unaborted past the last unsubscribe,
and two streams can transiently be open for one path; see the
counterexample.) -/
theorem c8_hub_invariants :
    (∀ (running : String → Bool) (acts : List HAct),
      ((hrun running hubInit acts).activeStreams.map Prod.fst).Nodup) ∧
    (∀ (running : String → Bool) (s : HubState) (path : String) (sink : Nat)
        (l : List Nat),
      alookup s.connections path = some l → (l.erase sink).isEmpty = true →
      ((s.activeStreams.map Prod.fst).Nodup →
        alookup (hstep running s (.close path sink)).activeStreams path = none) ∧
      (∀ sid, alookup s.activeStreams path = some sid →
        ∀ st, findStream (hstep running s (.close path sink)).streams sid = some st →
          st.aborted = true)) ∧
    (∀ (running : String → Bool) (s : HubState) (path : String),
      (alookup s.connections path = none ∨
        (alookup s.activeStreams path).isSome = true) →
      (hstep running s (.retryFire path)).streams = s.streams ∧
      (hstep running s (.retryFire path)).activeStreams = s.activeStreams) := by
  refine ⟨?_, ?_, ?_⟩
  · intro running acts
    exact hrun_nodup_active running acts hubInit (by simp [hubInit])
  · intro running s path sink l hconns hemp
    simp only [hstep, hconns, hemp, if_true]
    cases ha : alookup s.activeStreams path with
    | none =>
      refine ⟨fun _ => ha, ?_⟩
      intro sid hsid
      exact absurd hsid (by simp)
    | some sid0 =>
      constructor
      · intro hnd
        exact alookup_aremove_self path s.activeStreams hnd
      · intro sid hsid st hst
        have hss : sid0 = sid := Option.some.inj hsid
        subst hss
        exact findStream_abortStream_aborted sid0 s.streams st hst
  · intro running s path hyp
    simp only [hstep]
    by_cases hm : path ∈ s.retries
    · have hguard : ¬ (((alookup s.connections path).isSome = true) ∧
          ((alookup s.activeStreams path).isNone = true)) := by
        rcases hyp with h | h
        · intro hc
          rw [h] at hc
          simp at hc
        · intro hc
          rw [Option.isNone_iff_eq_none] at hc
          rw [hc.2] at h
          simp at h
      rw [if_pos hm, if_neg hguard]
      exact ⟨rfl, rfl⟩
    · rw [if_neg hm]
      exact ⟨rfl, rfl⟩

/-- Witness for C8 (amended): the invariants applied after a concrete
subscription; the close aborts and deregisters the concrete controller, and
a retry with no subscribers starts nothing. -/
theorem c8_witness :
    ((hrun (fun _ => true) hubInit [.sub "p" 1]).activeStreams.map Prod.fst).Nodup ∧
    alookup (hstep (fun _ => true) (hrun (fun _ => true) hubInit [.sub "p" 1])
      (.close "p" 1)).activeStreams "p" = none ∧
    (hstep (fun _ => true) hubInit (.retryFire "p")).streams = hubInit.streams := by
  refine ⟨c8_hub_invariants.1 (fun _ => true) [.sub "p" 1], ?_, ?_⟩
  · exact (c8_hub_invariants.2.1 (fun _ => true)
      (hrun (fun _ => true) hubInit [.sub "p" 1]) "p" 1 [1]
      (by decide) (by decide)).1 (by decide)
  · exact (c8_hub_invariants.2.2 (fun _ => true) hubInit "p" (Or.inl (by decide))).1

end OCM
